import Mathlib

/-!
Shallow embedding of the Doc_Collab collaborative document editor backend:
the document aggregate (content + version counter), the append-only version
ledger, the access guard, the debounced persistence scheduler, and the
session registry (document rooms), translated from `server.js` and the
document routers.
-/

/-- A ledger entry (`DocumentVersion` row): an immutable content snapshot
attributed to the user whose write produced it (`updatedById`). The ledger
for a document is a list ordered ascending by creation time. -/
structure Version where
  content : String
  authorId : Nat
  deriving Repr, DecidableEq

/-- The `Document` row: live content, the stored `currentVersion` counter,
the owner and the collaborator set. -/
structure Document where
  title : String
  content : String
  currentVersion : Nat
  ownerId : Nat
  collaboratorIds : List Nat
  deriving Repr, DecidableEq

/-- A document together with its version ledger (ascending creation order),
the unit of state every transactional route operates on. -/
structure DocState where
  doc : Document
  versions : List Version
  deriving Repr, DecidableEq

/-- Errors surfaced by the document routes and the save helper. -/
inductive DocError where
  | notFound
  | accessDenied
  | outOfRange
  deriving Repr, DecidableEq

/-- The access guard used by `server.js` and the guarded router: owner or
collaborator (`document.ownerId === parseInt(userId) ||
collaboratorIds.includes(parseInt(userId))`). -/
def canAccess (doc : Document) (userId : Nat) : Bool :=
  doc.ownerId == userId || doc.collaboratorIds.contains userId

/-- The snapshot-before-write step shared by update, explicit save and
revert: fetch the most recent ledger entry (`findOne` ordered `createdAt
DESC`) and append the current live content attributed to the acting user
only if the ledger is empty or that entry's content differs
(`if (!lastVersion || lastVersion.content !== document.content) create`). -/
def snapshotIfChanged (versions : List Version) (current : String) (userId : Nat) :
    List Version :=
  match versions.getLast? with
  | none => versions ++ [{ content := current, authorId := userId }]
  | some last =>
      if last.content ≠ current then versions ++ [{ content := current, authorId := userId }]
      else versions

/-- Document creation (`router.post('/')`): the document row is created with
`content: content || ''` and `currentVersion: 0`, and one initial
`DocumentVersion` is created carrying the same content. -/
def createDocument (title : String) (content : Option String) (userId : Nat) : DocState :=
  { doc :=
      { title := title
        content := content.getD ""
        currentVersion := 0
        ownerId := userId
        collaboratorIds := [] }
    versions := [{ content := content.getD "", authorId := userId }] }

/-- The guarded update route (`router.put('/:id')`): access check, unchanged
content no-op (rollback and return the document as is), otherwise snapshot
the old content into the ledger if it differs from the ledger head, install
the new content, and set `currentVersion` to an authoritative recount of the
ledger. -/
def updateDocument (s : DocState) (newContent : String) (userId : Nat) :
    Except DocError DocState :=
  if ¬ canAccess s.doc userId then .error .accessDenied
  else if s.doc.content == newContent then .ok s
  else
    let versions := snapshotIfChanged s.versions s.doc.content userId
    .ok { doc := { s.doc with content := newContent, currentVersion := versions.length }
          versions := versions }

/-- `saveDocumentToDB` from `server.js` (the document aggregate gateway used
by auto-save and explicit save): access check, then an early `return`
(plain `undefined`, modelled as `none`) when the content is unchanged,
otherwise snapshot-append, install content, recount, and return the updated
document with the recounted version count. -/
def saveDocumentToDB (s : DocState) (content : String) (userId : Nat) :
    Except DocError (DocState × Option Nat) :=
  if ¬ canAccess s.doc userId then .error .accessDenied
  else if s.doc.content == content then .ok (s, none)
  else
    let versions := snapshotIfChanged s.versions s.doc.content userId
    .ok ({ doc := { s.doc with content := content, currentVersion := versions.length }
           versions := versions },
         some versions.length)

/-- The guarded revert route (`router.post('/:id/revert/:versionIndex')`):
access check, bounds check on the parsed index against the materialized
ascending version list, snapshot the current content if it differs from the
ledger head, then install the selected version's content and recount. -/
def revertDocument (s : DocState) (index : Int) (userId : Nat) :
    Except DocError DocState :=
  if ¬ canAccess s.doc userId then .error .accessDenied
  else if index < 0 ∨ (s.versions.length : Int) ≤ index then .error .outOfRange
  else
    match s.versions.get? index.toNat with
    | none => .error .outOfRange
    | some v =>
        let versions := snapshotIfChanged s.versions s.doc.content userId
        .ok { doc := { s.doc with content := v.content, currentVersion := versions.length }
              versions := versions }

/-- The document state after the update route: the transaction commits on
success and rolls back (state unchanged) on any error. -/
def applyUpdate (s : DocState) (newContent : String) (userId : Nat) : DocState :=
  match updateDocument s newContent userId with
  | .ok s' => s'
  | .error _ => s

/-- The document state after `saveDocumentToDB`: commit on success, rollback
(state unchanged) on error; the unchanged no-op path also leaves state as
is. -/
def applySave (s : DocState) (content : String) (userId : Nat) : DocState :=
  match saveDocumentToDB s content userId with
  | .ok (s', _) => s'
  | .error _ => s

/-- The document state after the revert route: commit on success, rollback
on error. -/
def applyRevert (s : DocState) (index : Int) (userId : Nat) : DocState :=
  match revertDocument s index userId with
  | .ok s' => s'
  | .error _ => s

/-- The ledger dedup shape: no two consecutive entries (in creation order)
carry identical content. -/
def noConsecDup (versions : List Version) : Prop :=
  List.Chain' (fun a b => a.content ≠ b.content) versions

/-!  Session registry (`documentRooms`) and its socket handlers.  -/

/-- One authenticated socket connection: its id, the user it carries
(`socket.userId`), and the socket.io rooms it has joined. -/
structure Conn where
  cid : Nat
  uid : Nat
  joined : List Nat
  deriving Repr, DecidableEq

/-- The process-local session layer: live connections and the
`documentRooms` map from document id to the set of present user ids. -/
structure SessionState where
  conns : List Conn
  rooms : List (Nat × List Nat)
  deriving Repr, DecidableEq

/-- Map lookup on the room table. -/
def roomLookup (rooms : List (Nat × List Nat)) (docId : Nat) : Option (List Nat) :=
  (rooms.find? (fun e => e.1 == docId)).map (fun e => e.2)

/-- The member set `documentRooms.get(docId)` (`none` when the map has no
entry for the document). -/
def membersOf (st : SessionState) (docId : Nat) : Option (List Nat) :=
  roomLookup st.rooms docId

/-- The room-table step of `leave-document`: if the entry exists, delete the
user id from its member set and discard the entry when the set becomes
empty (`documentRooms.get(documentId).delete(socket.userId)` followed by
the `size === 0` check). -/
def removeFromRoom (rooms : List (Nat × List Nat)) (uid docId : Nat) :
    List (Nat × List Nat) :=
  match rooms.find? (fun e => e.1 == docId) with
  | none => rooms
  | some _ =>
      rooms.filterMap (fun e =>
        if e.1 == docId then
          let m := e.2.erase uid
          if m.isEmpty then none else some (e.1, m)
        else some e)

/-- The room-table sweep of `disconnect`: every room whose member set has
the user loses that user, the entry being discarded when the set becomes
empty; other rooms are untouched. -/
def removeUserRooms (rooms : List (Nat × List Nat)) (uid : Nat) :
    List (Nat × List Nat) :=
  rooms.filterMap (fun e =>
    if uid ∈ e.2 then
      let m := e.2.erase uid
      if m.isEmpty then none else some (e.1, m)
    else some e)

/-- `socket.join(documentId)`: record the room on the connection. -/
def setJoined (st : SessionState) (cid docId : Nat) : SessionState :=
  { st with
    conns := st.conns.map (fun c =>
      if c.cid == cid then
        { c with joined := if docId ∈ c.joined then c.joined else c.joined ++ [docId] }
      else c) }

/-- `socket.leave(documentId)`: drop the room from the connection. -/
def delJoined (st : SessionState) (cid docId : Nat) : SessionState :=
  { st with
    conns := st.conns.map (fun c =>
      if c.cid == cid then { c with joined := c.joined.erase docId } else c) }

/-- Reply of the join handler: an `error` event to the caller, or success
with the `active-users` list sent back to the joining connection. -/
inductive JoinReply where
  | errorMsg (msg : String)
  | joined (activeUsers : List Nat)
  deriving Repr, DecidableEq

/-- The `join-document` handler on an existing document: access check first
(on failure only an `error` event, no registry change), then
`socket.join`, then add the user id to the room's member set (creating the
entry when absent, set semantics), and reply with the current member
list. -/
def joinDocument (doc : Document) (st : SessionState) (cid uid docId : Nat) :
    SessionState × JoinReply :=
  if ¬ canAccess doc uid then (st, .errorMsg "Access denied")
  else
    let st1 := setJoined st cid docId
    let rooms :=
      match st1.rooms.find? (fun e => e.1 == docId) with
      | none => st1.rooms ++ [(docId, [uid])]
      | some _ =>
          st1.rooms.map (fun e =>
            if e.1 == docId then (e.1, if uid ∈ e.2 then e.2 else e.2 ++ [uid]) else e)
    let st2 : SessionState := { st1 with rooms := rooms }
    (st2, .joined ((membersOf st2 docId).getD []))

/-- The `leave-document` handler: `socket.leave`, then — if the room entry
exists — delete the user id from the member set and discard the entry when
the set becomes empty; finally emit `user-left` to the sockets still in the
room (the second component lists the notified connection ids). -/
def leaveDocument (st : SessionState) (cid uid docId : Nat) :
    SessionState × List Nat :=
  let st1 := delJoined st cid docId
  let st2 : SessionState := { st1 with rooms := removeFromRoom st1.rooms uid docId }
  (st2, (st2.conns.filter (fun c => c.cid ≠ cid ∧ docId ∈ c.joined)).map (fun c => c.cid))

/-- The `disconnect` room cleanup: the socket is removed; every room whose
member set contains the user loses that user (entry discarded when it
becomes empty) and its remaining sockets are notified with `user-left`
(second component: one `(docId, notified cids)` pair per affected room). -/
def disconnectCleanup (st : SessionState) (cid uid : Nat) :
    SessionState × List (Nat × List Nat) :=
  let conns := st.conns.filter (fun c => c.cid ≠ cid)
  let emits :=
    (st.rooms.filter (fun e => uid ∈ e.2)).map (fun e =>
      (e.1, (conns.filter (fun c => e.1 ∈ c.joined)).map (fun c => c.cid)))
  ({ conns := conns, rooms := removeUserRooms st.rooms uid }, emits)

/-!  Debounced persistence scheduler (`autoSaveTimers`).  -/

/-- The debounce window of the auto-save timer, in milliseconds
(`setTimeout(..., 2000)`). -/
def debounceWindow : Nat := 2000

/-- The timer key `documentId_userId`. -/
abbrev TimerKey := Nat × Nat

/-- The scheduler state: the `autoSaveTimers` map, each pending entry
holding the content it will persist and its expiry instant, plus the log of
persisted writes it has issued. -/
structure SchedState where
  timers : List (TimerKey × String × Nat)
  writes : List (TimerKey × String)
  deriving Repr, DecidableEq

/-- Timer expiry: every pending timer whose deadline has been reached fires,
persisting its pending content (appended to the write log) and removing
itself from the map. -/
def fireExpired (now : Nat) (st : SchedState) : SchedState :=
  { timers := st.timers.filter (fun e => ¬ e.2.2 ≤ now)
    writes := st.writes ++ (st.timers.filter (fun e => e.2.2 ≤ now)).map (fun e => (e.1, e.2.1)) }

/-- The `document-change` debounce step: any due timers have fired; the
pending entry for this `(documentId, userId)` key is cleared
(`clearTimeout`) and replaced by a fresh timer carrying this edit's content
with a full debounce window (`autoSaveTimers.set`). -/
def onEdit (key : TimerKey) (content : String) (now : Nat) (st : SchedState) : SchedState :=
  let st1 := fireExpired now st
  { st1 with
    timers := (st1.timers.filter (fun e => ¬ e.1 == key)) ++ [(key, content, now + debounceWindow)] }

/-- The explicit-save flush step of the `save-document` handler: cancel any
pending auto-save timer for the pair. -/
def clearTimer (key : TimerKey) (st : SchedState) : SchedState :=
  { st with timers := st.timers.filter (fun e => ¬ e.1 == key) }

/-- Process a burst of edits for one key, oldest first. -/
def runBurst (key : TimerKey) (edits : List (String × Nat)) (st : SchedState) : SchedState :=
  match edits with
  | [] => st
  | (c, t) :: rest => runBurst key rest (onEdit key c t st)

/-- Each listed edit arrives strictly before the deadline of the pending
save scheduled by the previous edit (i.e. within less than the debounce
window after it). -/
def withinWindow : Nat → List (String × Nat) → Prop
  | _, [] => True
  | d, (_, t) :: rest => t < d ∧ withinWindow (t + debounceWindow) rest

/-- The pending save for a key, if any. -/
def timerFor (key : TimerKey) (st : SchedState) : Option (String × Nat) :=
  (st.timers.find? (fun e => e.1 == key)).map (fun e => e.2)

/-- The persisted writes issued for a key, oldest first. -/
def writesFor (key : TimerKey) (st : SchedState) : List String :=
  (st.writes.filter (fun w => w.1 == key)).map (fun w => w.2)

/-- At most one pending entry per `(documentId, userId)` key (the shape the
source's `Map` keeps by construction). -/
def keysNodup (st : SchedState) : Prop :=
  (st.timers.map (fun e => e.1)).Nodup

/-- Reply of the `save-document` handler. -/
inductive SaveReply where
  | saved (recipients : List Nat) (version : Nat)
  | failed (msg : String)
  deriving Repr, DecidableEq

/-- The `save-document` handler: cancel the pending auto-save timer for the
pair, run `saveDocumentToDB`, and on success (the unchanged no-op included)
re-fetch the document and broadcast `document-saved` carrying its
`currentVersion` to every socket in the room, the saver included
(`io.to(documentId)`). On failure, an `error` event to the saver only. -/
def saveDocumentHandler (sched : SchedState) (s : DocState) (room : List Nat)
    (docId : Nat) (content : String) (uid : Nat) :
    SchedState × DocState × SaveReply :=
  let sched1 := clearTimer (docId, uid) sched
  match saveDocumentToDB s content uid with
  | .error _ => (sched1, s, .failed "Failed to save document")
  | .ok (s', _) => (sched1, s', .saved room s'.doc.currentVersion)

/-- The latest pending (content, deadline) after a burst of edits, starting
from a pending entry (c, d): later edits supersede earlier ones. -/
def lastEdit (edits : List (String × Nat)) (c : String) (d : Nat) : String × Nat :=
  match edits with
  | [] => (c, d)
  | (c', t') :: rest => lastEdit rest c' (t' + debounceWindow)

/-!  Helper lemmas.  -/

lemma snapshotIfChanged_chain (l : List Version) (cur : String) (u : Nat)
    (h : noConsecDup l) :
    noConsecDup (snapshotIfChanged l cur u) := by
  unfold snapshotIfChanged
  cases hl : l.getLast? with
  | none =>
      have hnil : l = [] := by
        cases l with
        | nil => rfl
        | cons a t => simp [List.getLast?_concat, List.getLast?] at hl
      subst hnil
      simp [noConsecDup]
  | some last =>
      by_cases hc : last.content ≠ cur
      · show noConsecDup
          (if last.content ≠ cur then l ++ [{ content := cur, authorId := u }] else l)
        rw [if_pos hc]
        unfold noConsecDup at h ⊢
        rw [List.chain'_append]
        refine ⟨h, List.chain'_singleton _, ?_⟩
        intro x hx y hy
        rw [hl] at hx
        simp at hx hy
        subst hx; subst hy
        exact hc
      · show noConsecDup
          (if last.content ≠ cur then l ++ [{ content := cur, authorId := u }] else l)
        rw [if_neg hc]
        exact h

lemma snapshotIfChanged_of_ne (l : List Version) (cur : String) (u : Nat)
    (h : ∀ last ∈ l.getLast?, last.content ≠ cur) :
    snapshotIfChanged l cur u = l ++ [{ content := cur, authorId := u }] := by
  unfold snapshotIfChanged
  cases hl : l.getLast? with
  | none => rfl
  | some last =>
      have := h last (by rw [hl]; rfl)
      simp [this]

lemma snapshotIfChanged_of_eq (l : List Version) (cur : String) (u : Nat)
    (last : Version) (hl : l.getLast? = some last) (h : last.content = cur) :
    snapshotIfChanged l cur u = l := by
  unfold snapshotIfChanged
  rw [hl]
  simp [h]

lemma removeFromRoom_not_mem (rooms : List (Nat × List Nat)) (uid docId : Nat)
    (h : ∀ e ∈ rooms, e.2.Nodup) :
    ∀ m, roomLookup (removeFromRoom rooms uid docId) docId = some m → uid ∉ m := by
  intro m hm
  unfold removeFromRoom at hm
  cases hfind : rooms.find? (fun e => e.1 == docId) with
  | none =>
      rw [hfind] at hm
      unfold roomLookup at hm
      rw [hfind] at hm
      cases hm
  | some e0 =>
      rw [hfind] at hm
      unfold roomLookup at hm
      rcases Option.map_eq_some'.mp hm with ⟨a, hfa, ha2⟩
      have hmem := List.mem_of_find?_eq_some hfa
      have hpred := List.find?_some hfa
      rcases List.mem_filterMap.mp hmem with ⟨x, hx, hfx⟩
      by_cases hxd : (x.1 == docId) = true
      · rw [if_pos hxd] at hfx
        by_cases hemp : (x.2.erase uid).isEmpty = true
        · rw [if_pos hemp] at hfx
          cases hfx
        · rw [if_neg hemp] at hfx
          cases hfx
          rw [← ha2]
          intro hin
          exact absurd ((h x hx).mem_erase_iff.mp hin).1 (by simp)
      · rw [if_neg hxd] at hfx
        cases hfx
        exact absurd hpred hxd

lemma removeFromRoom_nonempty (rooms : List (Nat × List Nat)) (uid docId : Nat)
    (h : ∀ e ∈ rooms, e.2 ≠ []) :
    ∀ e ∈ removeFromRoom rooms uid docId, e.2 ≠ [] := by
  intro e he
  unfold removeFromRoom at he
  cases hfind : rooms.find? (fun e => e.1 == docId) with
  | none =>
      rw [hfind] at he
      exact h e he
  | some e0 =>
      rw [hfind] at he
      rcases List.mem_filterMap.mp he with ⟨x, hx, hfx⟩
      by_cases hxd : (x.1 == docId) = true
      · rw [if_pos hxd] at hfx
        by_cases hemp : (x.2.erase uid).isEmpty = true
        · rw [if_pos hemp] at hfx
          cases hfx
        · rw [if_neg hemp] at hfx
          cases hfx
          simpa [List.isEmpty_iff] using hemp
      · rw [if_neg hxd] at hfx
        cases hfx
        exact h e hx

lemma removeUserRooms_not_mem (rooms : List (Nat × List Nat)) (uid : Nat)
    (h : ∀ e ∈ rooms, e.2.Nodup) :
    ∀ e ∈ removeUserRooms rooms uid, uid ∉ e.2 := by
  intro e he
  unfold removeUserRooms at he
  rcases List.mem_filterMap.mp he with ⟨x, hx, hfx⟩
  by_cases hxin : uid ∈ x.2
  · rw [if_pos hxin] at hfx
    by_cases hemp : (x.2.erase uid).isEmpty = true
    · rw [if_pos hemp] at hfx
      cases hfx
    · rw [if_neg hemp] at hfx
      cases hfx
      intro hin
      exact absurd ((h x hx).mem_erase_iff.mp hin).1 (by simp)
  · rw [if_neg hxin] at hfx
    cases hfx
    exact hxin

lemma removeUserRooms_nonempty (rooms : List (Nat × List Nat)) (uid : Nat)
    (h : ∀ e ∈ rooms, e.2 ≠ []) :
    ∀ e ∈ removeUserRooms rooms uid, e.2 ≠ [] := by
  intro e he
  unfold removeUserRooms at he
  rcases List.mem_filterMap.mp he with ⟨x, hx, hfx⟩
  by_cases hxin : uid ∈ x.2
  · rw [if_pos hxin] at hfx
    by_cases hemp : (x.2.erase uid).isEmpty = true
    · rw [if_pos hemp] at hfx
      cases hfx
    · rw [if_neg hemp] at hfx
      cases hfx
      simpa [List.isEmpty_iff] using hemp
  · rw [if_neg hxin] at hfx
    cases hfx
    exact h e hx

/-!  Claim C1.  -/

/-- Claim C1, counterexample: immediately after document creation the stored
`versionCount` (`currentVersion`) is 0 while the Version Ledger already
holds one entry (the initial version), so the invariant "versionCount
equals the ledger entry count after every successful write, document
creation included" fails at this reachable state. -/
theorem c1_creation_counterexample :
    (createDocument "t" (some "x") 5).doc.currentVersion ≠
      (createDocument "t" (some "x") 5).versions.length := by
  decide

/-- Claim C1 (amended): after every applied content change (via the update
route or `saveDocumentToDB`) and after every successful revert, the stored
`versionCount` equals the exact number of ledger entries, obtained by an
authoritative recount (it holds for every input state, even one whose
stored counter was stale); after document creation, however, the counter is
0 while the ledger holds exactly one entry. -/
theorem c1_versionCount_recount :
    (∀ (s : DocState) (c : String) (u : Nat) (s' : DocState),
        s.doc.content ≠ c → updateDocument s c u = .ok s' →
        s'.doc.currentVersion = s'.versions.length) ∧
    (∀ (s : DocState) (c : String) (u : Nat) (s' : DocState) (n : Nat),
        saveDocumentToDB s c u = .ok (s', some n) →
        s'.doc.currentVersion = s'.versions.length ∧ n = s'.versions.length) ∧
    (∀ (s : DocState) (i : Int) (u : Nat) (s' : DocState),
        revertDocument s i u = .ok s' →
        s'.doc.currentVersion = s'.versions.length) ∧
    (∀ (t : String) (c : Option String) (u : Nat),
        (createDocument t c u).doc.currentVersion = 0 ∧
        (createDocument t c u).versions.length = 1) := by
  refine ⟨?_, ?_, ?_, ?_⟩
  · intro s c u s' hne h
    unfold updateDocument at h
    split at h
    · cases h
    · split at h
      · rename_i hc
        exact absurd (by simpa using hc) hne
      · cases h
        rfl
  · intro s c u s' n h
    unfold saveDocumentToDB at h
    split at h
    · cases h
    · split at h
      · cases h
      · cases h
        exact ⟨rfl, rfl⟩
  · intro s i u s' h
    unfold revertDocument at h
    split at h
    · cases h
    · split at h
      · cases h
      · split at h
        · cases h
        · cases h
          rfl
  · intro t c u
    exact ⟨rfl, rfl⟩

/-- Witness for C1 (amended), at the concrete first edit of a fresh
document. -/
theorem c1_versionCount_recount_witness :
    (applyUpdate (createDocument "t" (some "v0") 1) "v1" 1).doc.currentVersion =
      (applyUpdate (createDocument "t" (some "v0") 1) "v1" 1).versions.length :=
  c1_versionCount_recount.1 (createDocument "t" (some "v0") 1) "v1" 1
    (applyUpdate (createDocument "t" (some "v0") 1) "v1" 1) (by decide) (by rfl)

/-!  Claim C2.  -/

/-- Claim C2, counterexample: document creation writes an initial ledger
entry carrying the same content it installs as the live content, so the
freshly created (reachable) state has a final ledger entry equal to the
document's current content, falsifying the invariant as stated. -/
theorem c2_final_entry_counterexample :
    ((createDocument "t" (some "x") 5).versions.getLast?).map (fun v => v.content) =
      some (createDocument "t" (some "x") 5).doc.content := by
  decide

/-- Claim C2 (amended): the first half of the invariant holds — the ledger
never contains two consecutive entries with identical content: creation
establishes it and every ledger-touching operation (update route,
`saveDocumentToDB`, revert) preserves it.  The second half (final entry
never equals live content) is violated at creation. -/
theorem c2_no_consecutive_duplicates :
    (∀ (t : String) (c : Option String) (u : Nat),
        noConsecDup (createDocument t c u).versions) ∧
    (∀ (s : DocState) (c : String) (u : Nat) (s' : DocState),
        noConsecDup s.versions → updateDocument s c u = .ok s' →
        noConsecDup s'.versions) ∧
    (∀ (s : DocState) (c : String) (u : Nat) (r : DocState × Option Nat),
        noConsecDup s.versions → saveDocumentToDB s c u = .ok r →
        noConsecDup r.1.versions) ∧
    (∀ (s : DocState) (i : Int) (u : Nat) (s' : DocState),
        noConsecDup s.versions → revertDocument s i u = .ok s' →
        noConsecDup s'.versions) := by
  refine ⟨?_, ?_, ?_, ?_⟩
  · intro t c u
    simp [createDocument, noConsecDup]
  · intro s c u s' h0 h
    unfold updateDocument at h
    split at h
    · cases h
    · split at h
      · cases h
        exact h0
      · cases h
        exact snapshotIfChanged_chain _ _ _ h0
  · intro s c u r h0 h
    unfold saveDocumentToDB at h
    split at h
    · cases h
    · split at h
      · cases h
        exact h0
      · cases h
        exact snapshotIfChanged_chain _ _ _ h0
  · intro s i u s' h0 h
    unfold revertDocument at h
    split at h
    · cases h
    · split at h
      · cases h
      · split at h
        · cases h
        · cases h
          exact snapshotIfChanged_chain _ _ _ h0

/-- Witness for C2 (amended), on a fresh document and its first applied
edit. -/
theorem c2_no_consecutive_duplicates_witness :
    noConsecDup (createDocument "t" (some "v0") 1).versions ∧
    noConsecDup (applyUpdate (createDocument "t" (some "v0") 1) "v1" 1).versions :=
  ⟨c2_no_consecutive_duplicates.1 "t" (some "v0") 1,
   c2_no_consecutive_duplicates.2.1 (createDocument "t" (some "v0") 1) "v1" 1
     (applyUpdate (createDocument "t" (some "v0") 1) "v1" 1)
     (by simp [createDocument, noConsecDup]) (by rfl)⟩

/-!  Claim C3.  -/

/-- Claim C3: when the new content equals the document's content at
transaction start (and the caller has access), the update route and
`saveDocumentToDB` are no-ops: the transaction is rolled back with no
ledger append, no counter bump, and no content change; the route returns
the unchanged document (carrying the existing version count) as a
successful response, and the gateway returns success with no payload. -/
theorem c3_unchanged_noop (s : DocState) (c : String) (u : Nat)
    (hacc : canAccess s.doc u = true) (heq : s.doc.content = c) :
    updateDocument s c u = .ok s ∧ saveDocumentToDB s c u = .ok (s, none) := by
  constructor
  · unfold updateDocument
    simp [hacc, heq]
  · unfold saveDocumentToDB
    simp [hacc, heq]

/-- Witness for C3 at a concrete document and identical content. -/
theorem c3_unchanged_noop_witness :
    updateDocument (createDocument "t" (some "v0") 1) "v0" 1 =
        .ok (createDocument "t" (some "v0") 1) ∧
    saveDocumentToDB (createDocument "t" (some "v0") 1) "v0" 1 =
        .ok (createDocument "t" (some "v0") 1, none) :=
  c3_unchanged_noop (createDocument "t" (some "v0") 1) "v0" 1 (by decide) (by decide)

/-!  Claim C4.  -/

/-- Claim C4: whenever a content change is actually applied (access granted
and new content different from the stored content), the entry appended to
the ledger carries the document's previous, pre-write content attributed to
the acting user — never the new content — and it is appended exactly when
the ledger is empty or its most recent entry's content differs from that
previous content; both the update route and `saveDocumentToDB` behave this
way, and the new live content is installed in either case. -/
theorem c4_snapshot_before_write (s : DocState) (c : String) (u : Nat)
    (hacc : canAccess s.doc u = true) (hne : s.doc.content ≠ c) :
    ∃ s', updateDocument s c u = .ok s' ∧
      saveDocumentToDB s c u = .ok (s', some s'.versions.length) ∧
      s'.doc.content = c ∧
      ((s.versions.getLast? = none ∨
          (∃ last, s.versions.getLast? = some last ∧ last.content ≠ s.doc.content)) →
        s'.versions = s.versions ++ [{ content := s.doc.content, authorId := u }]) ∧
      (∀ last, s.versions.getLast? = some last → last.content = s.doc.content →
        s'.versions = s.versions) := by
  refine ⟨{ doc := { s.doc with content := c, currentVersion := (snapshotIfChanged s.versions s.doc.content u).length }, versions := snapshotIfChanged s.versions s.doc.content u }, ?_, ?_, rfl, ?_, ?_⟩
  · unfold updateDocument
    rw [if_neg (by simp [hacc]), if_neg (by simp [hne])]
  · unfold saveDocumentToDB
    rw [if_neg (by simp [hacc]), if_neg (by simp [hne])]
  · intro hcase
    show snapshotIfChanged s.versions s.doc.content u =
      s.versions ++ [{ content := s.doc.content, authorId := u }]
    apply snapshotIfChanged_of_ne
    intro last hlast
    rcases hcase with hnone | ⟨last2, hsome, hne2⟩
    · rw [hnone] at hlast
      cases hlast
    · rw [hsome] at hlast
      simp at hlast
      rw [← hlast]
      exact hne2
  · intro last hlast heq
    exact snapshotIfChanged_of_eq s.versions s.doc.content u last hlast heq

/-- Witness for C4: second edit of a fresh document, where the dedup guard
sees a differing ledger head and appends the pre-write content. -/
theorem c4_snapshot_before_write_witness :
    ∃ s', updateDocument (applyUpdate (createDocument "t" (some "v0") 1) "v1" 1) "v2" 1 =
        .ok s' ∧
      saveDocumentToDB (applyUpdate (createDocument "t" (some "v0") 1) "v1" 1) "v2" 1 =
        .ok (s', some s'.versions.length) ∧
      s'.doc.content = "v2" ∧
      (((applyUpdate (createDocument "t" (some "v0") 1) "v1" 1).versions.getLast? = none ∨
          (∃ last, (applyUpdate (createDocument "t" (some "v0") 1) "v1" 1).versions.getLast? =
              some last ∧
            last.content ≠ (applyUpdate (createDocument "t" (some "v0") 1) "v1" 1).doc.content)) →
        s'.versions = (applyUpdate (createDocument "t" (some "v0") 1) "v1" 1).versions ++
          [{ content := (applyUpdate (createDocument "t" (some "v0") 1) "v1" 1).doc.content,
             authorId := 1 }]) ∧
      (∀ last, (applyUpdate (createDocument "t" (some "v0") 1) "v1" 1).versions.getLast? =
          some last →
        last.content = (applyUpdate (createDocument "t" (some "v0") 1) "v1" 1).doc.content →
        s'.versions = (applyUpdate (createDocument "t" (some "v0") 1) "v1" 1).versions) :=
  c4_snapshot_before_write (applyUpdate (createDocument "t" (some "v0") 1) "v1" 1) "v2" 1
    (by decide) (by decide)

/-!  Claim C6.  -/

/-- Claim C6: a revert whose parsed index is negative or at least the
number of ledger entries fails with the out-of-range error (HTTP 400,
"Invalid version index") and, the transaction being rolled back, leaves the
document content, the version counter and the ledger unchanged. -/
theorem c6_revert_out_of_range (s : DocState) (i : Int) (u : Nat)
    (hacc : canAccess s.doc u = true)
    (hout : i < 0 ∨ (s.versions.length : Int) ≤ i) :
    revertDocument s i u = .error .outOfRange ∧ applyRevert s i u = s := by
  have h : revertDocument s i u = .error .outOfRange := by
    unfold revertDocument
    rw [if_neg (by simp [hacc]), if_pos hout]
  exact ⟨h, by unfold applyRevert; rw [h]⟩

/-- Witness for C6 at index 1 on a single-entry ledger. -/
theorem c6_revert_out_of_range_witness :
    revertDocument (createDocument "t" (some "v0") 1) 1 1 = .error .outOfRange ∧
    applyRevert (createDocument "t" (some "v0") 1) 1 1 = createDocument "t" (some "v0") 1 :=
  c6_revert_out_of_range (createDocument "t" (some "v0") 1) 1 1 (by decide)
    (Or.inr (by decide))

/-!  Claim C5.  -/

/-- Claim C5, counterexample: on a freshly created document (ledger holds
one entry equal to the live content), reverting to index 0 and then
reverting back to the content that was live before that revert (again index
0, the entry carrying it) succeeds twice and reproduces the live content,
but appends zero ledger entries — not the two the claim requires. -/
theorem c5_roundtrip_counterexample :
    (revertDocument (createDocument "t" (some "x") 5) 0 5).toOption =
        some (applyRevert (createDocument "t" (some "x") 5) 0 5) ∧
    (revertDocument (applyRevert (createDocument "t" (some "x") 5) 0 5) 0 5).toOption =
        some (applyRevert (applyRevert (createDocument "t" (some "x") 5) 0 5) 0 5) ∧
    (applyRevert (applyRevert (createDocument "t" (some "x") 5) 0 5) 0 5).doc.content =
        (createDocument "t" (some "x") 5).doc.content ∧
    (applyRevert (applyRevert (createDocument "t" (some "x") 5) 0 5) 0 5).versions.length =
        (createDocument "t" (some "x") 5).versions.length ∧
    (createDocument "t" (some "x") 5).versions.length ≠
        (createDocument "t" (some "x") 5).versions.length + 2 := by
  decide

/-- Successful in-bounds revert, fully characterized. -/
lemma revertDocument_ok (s : DocState) (i : Nat) (u : Nat)
    (hacc : canAccess s.doc u = true) (hi : i < s.versions.length) :
    revertDocument s (i : Int) u =
      .ok { doc := { s.doc with content := (s.versions.get ⟨i, hi⟩).content, currentVersion := (snapshotIfChanged s.versions s.doc.content u).length }, versions := snapshotIfChanged s.versions s.doc.content u } := by
  unfold revertDocument
  rw [if_neg (by simp [hacc])]
  rw [if_neg (by push_neg; exact ⟨Int.natCast_nonneg i, by exact_mod_cast hi⟩)]
  rw [show ((i : Int)).toNat = i from Int.toNat_natCast i, List.get?_eq_get hi]

/-- Claim C5 (amended): if the ledger head differs from the live content
(the state left by any applied change) and version `i` holds content
different from the live content (a genuine revert), then reverting to `i`
and then reverting back to the entry that captured the pre-revert live
content reproduces the original live content and the two reverts append
exactly two ledger entries, one per revert.  (Without those provisos the
round trip can append fewer entries — see the counterexample.) -/
theorem c5_roundtrip_amended (s : DocState) (u : Nat) (i : Nat)
    (hi : i < s.versions.length)
    (hacc : canAccess s.doc u = true)
    (hhead : (s.versions.getLast?.all (fun last => last.content != s.doc.content)) = true)
    (hne : (s.versions.get ⟨i, hi⟩).content ≠ s.doc.content) :
    ∃ s1 s2,
      revertDocument s (i : Int) u = .ok s1 ∧
      revertDocument s1 (s.versions.length : Int) u = .ok s2 ∧
      s1.versions.length = s.versions.length + 1 ∧
      (s1.versions.get? s.versions.length).map (fun v => v.content) =
        some s.doc.content ∧
      s2.doc.content = s.doc.content ∧
      s2.versions.length = s.versions.length + 2 := by
  have hhead' : ∀ last ∈ s.versions.getLast?, last.content ≠ s.doc.content := by
    intro last hl
    cases hgl : s.versions.getLast? with
    | none => rw [hgl] at hl; cases hl
    | some v =>
        rw [hgl] at hl
        simp at hl
        subst hl
        rw [hgl] at hhead
        simpa [Option.all, bne_iff_ne] using hhead
  have hsnap1 : snapshotIfChanged s.versions s.doc.content u =
      s.versions ++ [{ content := s.doc.content, authorId := u }] :=
    snapshotIfChanged_of_ne s.versions s.doc.content u hhead'
  have h1 := revertDocument_ok s i u hacc hi
  have hlen1 : (snapshotIfChanged s.versions s.doc.content u).length = s.versions.length + 1 := by
    rw [hsnap1]; simp
  set s1 : DocState := { doc := { s.doc with content := (s.versions.get ⟨i, hi⟩).content, currentVersion := (snapshotIfChanged s.versions s.doc.content u).length }, versions := snapshotIfChanged s.versions s.doc.content u } with hs1
  have hacc1 : canAccess s1.doc u = true := hacc
  have hi2 : s.versions.length < s1.versions.length := by
    show s.versions.length < (snapshotIfChanged s.versions s.doc.content u).length
    rw [hlen1]; omega
  have hget2 : s1.versions.get ⟨s.versions.length, hi2⟩ =
      { content := s.doc.content, authorId := u } := by
    have hq : s1.versions.get? s.versions.length =
        some { content := s.doc.content, authorId := u } := by
      show (snapshotIfChanged s.versions s.doc.content u).get? s.versions.length =
        some { content := s.doc.content, authorId := u }
      rw [hsnap1]
      exact List.get?_concat_length s.versions _
    rw [List.get?_eq_get hi2] at hq
    exact Option.some.inj hq
  have hlast1 : s1.versions.getLast? = some { content := s.doc.content, authorId := u } := by
    show (snapshotIfChanged s.versions s.doc.content u).getLast? = _
    rw [hsnap1]
    exact List.getLast?_concat s.versions
  have hhead1 : ∀ last ∈ s1.versions.getLast?, last.content ≠ s1.doc.content := by
    intro last hl
    rw [hlast1] at hl
    simp at hl
    subst hl
    show s.doc.content ≠ (s.versions.get ⟨i, hi⟩).content
    exact fun h => hne h.symm
  have hsnap2 : snapshotIfChanged s1.versions s1.doc.content u =
      s1.versions ++ [{ content := s1.doc.content, authorId := u }] :=
    snapshotIfChanged_of_ne s1.versions s1.doc.content u hhead1
  have h2 := revertDocument_ok s1 s.versions.length u hacc1 hi2
  refine ⟨s1, _, h1, h2, ?_, ?_, ?_, ?_⟩
  · show (snapshotIfChanged s.versions s.doc.content u).length = s.versions.length + 1
    exact hlen1
  · show ((snapshotIfChanged s.versions s.doc.content u).get? s.versions.length).map
      (fun v => v.content) = some s.doc.content
    rw [hsnap1, List.get?_concat_length s.versions]
    rfl
  · show (s1.versions.get ⟨s.versions.length, hi2⟩).content = s.doc.content
    rw [hget2]
  · show (snapshotIfChanged s1.versions s1.doc.content u).length = s.versions.length + 2
    rw [hsnap2]
    have : s1.versions.length = s.versions.length + 1 := hlen1
    simp [this]

/-- Witness for C5 (amended): document with ledger ["v0", "v1"] and live
content "v2", reverting to index 0 and back. -/
theorem c5_roundtrip_amended_witness :
    ∃ s1 s2,
      revertDocument (applyUpdate (applyUpdate (createDocument "t" (some "v0") 1) "v1" 1)
          "v2" 1) ((0 : Nat) : Int) 1 = .ok s1 ∧
      revertDocument s1
          (((applyUpdate (applyUpdate (createDocument "t" (some "v0") 1) "v1" 1)
              "v2" 1).versions.length : Int)) 1 = .ok s2 ∧
      s1.versions.length =
        (applyUpdate (applyUpdate (createDocument "t" (some "v0") 1) "v1" 1)
          "v2" 1).versions.length + 1 ∧
      (s1.versions.get?
          (applyUpdate (applyUpdate (createDocument "t" (some "v0") 1) "v1" 1)
            "v2" 1).versions.length).map (fun v => v.content) =
        some (applyUpdate (applyUpdate (createDocument "t" (some "v0") 1) "v1" 1)
          "v2" 1).doc.content ∧
      s2.doc.content =
        (applyUpdate (applyUpdate (createDocument "t" (some "v0") 1) "v1" 1)
          "v2" 1).doc.content ∧
      s2.versions.length =
        (applyUpdate (applyUpdate (createDocument "t" (some "v0") 1) "v1" 1)
          "v2" 1).versions.length + 2 :=
  c5_roundtrip_amended
    (applyUpdate (applyUpdate (createDocument "t" (some "v0") 1) "v1" 1) "v2" 1) 1 0
    (by decide) (by decide) (by decide) (by decide)

/-!  Claim C7.  -/

/-- Claim C7: the access guard is exactly "owner or collaborator", and a
user who is neither fails every guarded operation — room join, persistence
via `saveDocumentToDB` (debounced or explicit), the update route, and the
revert route — with the access-denied error, producing no Session Registry
and no ledger or document side effects (each transaction rolls back and
join leaves the room map untouched). -/
theorem c7_access_guard :
    (∀ (d : Document) (u : Nat),
        canAccess d u = true ↔ (u = d.ownerId ∨ u ∈ d.collaboratorIds)) ∧
    (∀ (s : DocState) (c : String) (u : Nat), canAccess s.doc u = false →
        updateDocument s c u = .error .accessDenied ∧ applyUpdate s c u = s) ∧
    (∀ (s : DocState) (c : String) (u : Nat), canAccess s.doc u = false →
        saveDocumentToDB s c u = .error .accessDenied ∧ applySave s c u = s) ∧
    (∀ (s : DocState) (i : Int) (u : Nat), canAccess s.doc u = false →
        revertDocument s i u = .error .accessDenied ∧ applyRevert s i u = s) ∧
    (∀ (doc : Document) (st : SessionState) (cid uid docId : Nat),
        canAccess doc uid = false →
        joinDocument doc st cid uid docId = (st, .errorMsg "Access denied")) := by
  refine ⟨?_, ?_, ?_, ?_, ?_⟩
  · intro d u
    simp only [canAccess, Bool.or_eq_true, beq_iff_eq, List.elem_iff, List.contains]
    exact or_congr eq_comm Iff.rfl
  · intro s c u hdeny
    have h : updateDocument s c u = .error .accessDenied := by
      unfold updateDocument
      rw [if_pos (by simp [hdeny])]
    exact ⟨h, by unfold applyUpdate; rw [h]⟩
  · intro s c u hdeny
    have h : saveDocumentToDB s c u = .error .accessDenied := by
      unfold saveDocumentToDB
      rw [if_pos (by simp [hdeny])]
    exact ⟨h, by unfold applySave; rw [h]⟩
  · intro s i u hdeny
    have h : revertDocument s i u = .error .accessDenied := by
      unfold revertDocument
      rw [if_pos (by simp [hdeny])]
    exact ⟨h, by unfold applyRevert; rw [h]⟩
  · intro doc st cid uid docId hdeny
    unfold joinDocument
    rw [if_pos (by simp [hdeny])]

/-- Witness for C7: user 9 is neither the owner (1) nor a collaborator of a
fresh document; every guarded operation denies and leaves state as is. -/
theorem c7_access_guard_witness :
    (canAccess (createDocument "t" (some "v0") 1).doc 1 = true ↔
        (1 = (createDocument "t" (some "v0") 1).doc.ownerId ∨
          1 ∈ (createDocument "t" (some "v0") 1).doc.collaboratorIds)) ∧
    (updateDocument (createDocument "t" (some "v0") 1) "v1" 9 = .error .accessDenied ∧
      applyUpdate (createDocument "t" (some "v0") 1) "v1" 9 =
        createDocument "t" (some "v0") 1) ∧
    (saveDocumentToDB (createDocument "t" (some "v0") 1) "v1" 9 = .error .accessDenied ∧
      applySave (createDocument "t" (some "v0") 1) "v1" 9 =
        createDocument "t" (some "v0") 1) ∧
    (revertDocument (createDocument "t" (some "v0") 1) 0 9 = .error .accessDenied ∧
      applyRevert (createDocument "t" (some "v0") 1) 0 9 =
        createDocument "t" (some "v0") 1) ∧
    joinDocument (createDocument "t" (some "v0") 1).doc
        { conns := [], rooms := [] } 4 9 3 =
      ({ conns := [], rooms := [] }, .errorMsg "Access denied") :=
  ⟨c7_access_guard.1 (createDocument "t" (some "v0") 1).doc 1,
   c7_access_guard.2.1 (createDocument "t" (some "v0") 1) "v1" 9 (by decide),
   c7_access_guard.2.2.1 (createDocument "t" (some "v0") 1) "v1" 9 (by decide),
   c7_access_guard.2.2.2.1 (createDocument "t" (some "v0") 1) 0 9 (by decide),
   c7_access_guard.2.2.2.2 (createDocument "t" (some "v0") 1).doc
     { conns := [], rooms := [] } 4 9 3 (by decide)⟩

/-!  Claim C8.  -/

lemma onEdit_eq (key : TimerKey) (c : String) (t : Nat) (st : SchedState) :
    onEdit key c t st =
      { timers := (st.timers.filter (fun e => ¬ e.2.2 ≤ t)).filter (fun e => ¬ e.1 == key) ++
          [(key, c, t + debounceWindow)],
        writes := st.writes ++
          (st.timers.filter (fun e => e.2.2 ≤ t)).map (fun e => (e.1, e.2.1)) } :=
  rfl

lemma find?_key_concat (key : TimerKey) (l : List (TimerKey × String × Nat))
    (x : TimerKey × String × Nat) (h : ∀ e ∈ l, e.1 ≠ key) (hx : x.1 = key) :
    (l ++ [x]).find? (fun e => e.1 == key) = some x := by
  induction l with
  | nil => simp [List.find?, hx]
  | cons a l ih =>
      have ha : ¬ ((a.1 == key) = true) := by
        simpa using h a (List.mem_cons_self a l)
      rw [List.cons_append, List.find?_cons_of_neg _ (by simpa using ha)]
      exact ih (fun e he => h e (List.mem_cons_of_mem a he))

lemma filter_key_nil (key : TimerKey) (w : List (TimerKey × String))
    (h : ∀ e ∈ w, e.1 ≠ key) :
    w.filter (fun e => e.1 == key) = [] := by
  rw [List.filter_eq_nil]
  intro e he
  simpa using h e he

lemma writesFor_mk (key : TimerKey) (ts : List (TimerKey × String × Nat))
    (w : List (TimerKey × String)) :
    writesFor key { timers := ts, writes := w } =
      (w.filter (fun e => e.1 == key)).map (fun e => e.2) :=
  rfl

lemma wkey_fireExpired (key : TimerKey) (T : Nat) (ts : List (TimerKey × String × Nat))
    (w : List (TimerKey × String)) :
    writesFor key (fireExpired T { timers := ts, writes := w }) =
      (w.filter (fun e => e.1 == key)).map (fun e => e.2) ++
        (((ts.filter (fun e => e.2.2 ≤ T)).map (fun e => (e.1, e.2.1))).filter
          (fun e => e.1 == key)).map (fun e => e.2) := by
  unfold writesFor fireExpired
  simp [List.filter_append]

lemma keysNodup_fireExpired (st : SchedState) (now : Nat) (h : keysNodup st) :
    keysNodup (fireExpired now st) :=
  List.Nodup.sublist (List.Sublist.map _ (List.filter_sublist _)) h

lemma keysNodup_onEdit (key : TimerKey) (c : String) (t : Nat) (st : SchedState)
    (h : keysNodup st) : keysNodup (onEdit key c t st) := by
  rw [onEdit_eq]
  unfold keysNodup at h ⊢
  rw [List.map_append]
  rw [List.nodup_append]
  refine ⟨?_, by simp, ?_⟩
  · exact List.Nodup.sublist
      (List.Sublist.map _ ((List.filter_sublist _).trans (List.filter_sublist _))) h
  · intro x hx hx2
    simp only [List.map_cons, List.map_nil, List.mem_singleton] at hx2
    subst hx2
    simp only [List.mem_map, List.mem_filter] at hx
    rcases hx with ⟨e, ⟨he1, he2⟩, he3⟩
    rw [decide_eq_true_eq] at he2
    exact he2 (by simp [he3])

lemma lastEdit_fst (edits : List (String × Nat)) :
    ∀ (c : String) (d : Nat),
      (lastEdit edits c d).1 = ((edits.map (fun e => e.1)).getLast?).getD c := by
  induction edits with
  | nil => intro c d; rfl
  | cons e rest ih =>
      intro c d
      rcases e with ⟨c2, t2⟩
      show (lastEdit rest c2 (t2 + debounceWindow)).1 = _
      rw [ih c2 (t2 + debounceWindow)]
      cases hr : rest with
      | nil => simp
      | cons r rs =>
          simp only [List.map_cons]
          rw [List.getLast?_cons_cons]
          cases hgl : (r.1 :: List.map (fun e => e.1) rs).getLast? with
          | none => simp [List.getLast?] at hgl
          | some y => rfl

/-- Invariant carried through a burst: the pending entry for the key sits at
the end of the timer table, every other entry has a different key, and no
write for the key is ever issued while the chain of edits keeps arriving
before the pending deadline. -/
lemma runBurst_rep (key : TimerKey) :
    ∀ (edits : List (String × Nat)) (other : List (TimerKey × String × Nat))
      (w : List (TimerKey × String)) (c : String) (d : Nat),
      (∀ e ∈ other, e.1 ≠ key) →
      withinWindow d edits →
      ∃ other2 w2,
        runBurst key edits { timers := other ++ [(key, c, d)], writes := w } =
          { timers := other2 ++ [(key, (lastEdit edits c d).1, (lastEdit edits c d).2)],
            writes := w2 } ∧
        (∀ e ∈ other2, e.1 ≠ key) ∧
        w2.filter (fun e => e.1 == key) = w.filter (fun e => e.1 == key) := by
  intro edits
  induction edits with
  | nil =>
      intro other w c d hother _
      exact ⟨other, w, rfl, hother, rfl⟩
  | cons e rest ih =>
      intro other w c d hother hwin
      rcases e with ⟨c2, t2⟩
      rcases hwin with ⟨ht2, hwin2⟩
      show ∃ other2 w2,
        runBurst key rest (onEdit key c2 t2 { timers := other ++ [(key, c, d)], writes := w }) =
          _ ∧ _ ∧ _
      rw [onEdit_eq]
      have hsing1 : (fun (e : TimerKey × String × Nat) => decide (¬ e.2.2 ≤ t2)) (key, c, d) =
          true := by
        simp only [decide_eq_true_eq]
        omega
      have hsing2 : (fun (e : TimerKey × String × Nat) => decide (e.2.2 ≤ t2)) (key, c, d) =
          false := by
        simp only [decide_eq_false_iff_not]
        omega
      have htimers : ((other ++ [(key, c, d)]).filter (fun e => ¬ e.2.2 ≤ t2)).filter
            (fun e => ¬ e.1 == key) =
          (other.filter (fun e => ¬ e.2.2 ≤ t2)).filter (fun e => ¬ e.1 == key) ++
            [(key, c, d)].filter (fun e => ¬ e.1 == key) := by
        rw [List.filter_append, List.filter_append]
        congr 1
        rw [show ([(key, c, d)].filter (fun e => ¬ e.2.2 ≤ t2)) = [(key, c, d)] from by
          simp [List.filter_cons]
          omega]
      have hkeyfilter : [(key, c, d)].filter
          (fun (e : TimerKey × String × Nat) => ¬ e.1 == key) = [] := by
        simp [List.filter_cons]
      have hwrites : ((other ++ [(key, c, d)]).filter (fun e => e.2.2 ≤ t2)).map
            (fun e => (e.1, e.2.1)) =
          (other.filter (fun e => e.2.2 ≤ t2)).map (fun e => (e.1, e.2.1)) := by
        rw [List.filter_append]
        rw [show ([(key, c, d)].filter (fun e => e.2.2 ≤ t2)) = [] from by
          simp [List.filter_cons]
          omega]
        simp
      rw [htimers, hkeyfilter, List.append_nil, hwrites]
      have hother2 : ∀ e ∈ (other.filter (fun e => ¬ e.2.2 ≤ t2)).filter
          (fun e => ¬ e.1 == key), e.1 ≠ key := fun e he =>
        hother e (List.mem_of_mem_filter (List.mem_of_mem_filter he))
      rcases ih ((other.filter (fun e => ¬ e.2.2 ≤ t2)).filter (fun e => ¬ e.1 == key))
          (w ++ (other.filter (fun e => e.2.2 ≤ t2)).map (fun e => (e.1, e.2.1)))
          c2 (t2 + debounceWindow) hother2 hwin2 with ⟨other2, w2, heq, hk2, hf2⟩
      refine ⟨other2, w2, heq, hk2, ?_⟩
      rw [hf2, List.filter_append]
      have : ((other.filter (fun e => e.2.2 ≤ t2)).map
          (fun e => (e.1, e.2.1))).filter (fun e => e.1 == key) = [] := by
        apply filter_key_nil
        intro e he
        simp only [List.mem_map, List.mem_filter] at he
        rcases he with ⟨x, ⟨hx1, _⟩, hx3⟩
        rw [← hx3]
        exact hother x hx1
      rw [this, List.append_nil]

/-- Claim C8: (a) the scheduler's timer table keeps at most one pending save
per `(documentId, userId)` key — both the replace-on-edit step and timer
expiry preserve key uniqueness (the source's `Map.set`/`clearTimeout`
discipline); (b) a burst of N edits on one key, each arriving before the
previous edit's debounce deadline, issues no persisted write during the
burst, leaves exactly one pending save carrying the last edit's content,
and once the final deadline passes produces exactly one persisted write for
that key, carrying the content of the last edit in the burst. -/
theorem c8_debounce_coalescing :
    (∀ (st : SchedState) (key : TimerKey) (c : String) (t : Nat),
        keysNodup st → keysNodup (onEdit key c t st)) ∧
    (∀ (st : SchedState) (now : Nat), keysNodup st → keysNodup (fireExpired now st)) ∧
    (∀ (key : TimerKey) (c1 : String) (t1 : Nat) (rest : List (String × Nat))
        (st0 : SchedState) (T : Nat),
        timerFor key st0 = none →
        withinWindow (t1 + debounceWindow) rest →
        (lastEdit rest c1 (t1 + debounceWindow)).2 ≤ T →
        writesFor key (runBurst key ((c1, t1) :: rest) st0) = writesFor key st0 ∧
        timerFor key (runBurst key ((c1, t1) :: rest) st0) =
          some (lastEdit rest c1 (t1 + debounceWindow)) ∧
        writesFor key (fireExpired T (runBurst key ((c1, t1) :: rest) st0)) =
          writesFor key st0 ++ [(lastEdit rest c1 (t1 + debounceWindow)).1] ∧
        (lastEdit rest c1 (t1 + debounceWindow)).1 =
          ((((c1, t1) :: rest).map (fun e => e.1)).getLast?).getD c1) := by
  refine ⟨fun st key c t h => keysNodup_onEdit key c t st h,
    fun st now h => keysNodup_fireExpired st now h, ?_⟩
  intro key c1 t1 rest st0 T hnone hwin hT
  have hnokey : ∀ e ∈ st0.timers, e.1 ≠ key := by
    intro e he
    unfold timerFor at hnone
    rcases Option.map_eq_none'.mp hnone with hfind
    have := List.find?_eq_none.mp hfind e he
    simpa using this
  have hstep : runBurst key ((c1, t1) :: rest) st0 =
      runBurst key rest (onEdit key c1 t1 st0) := rfl
  have hshape := onEdit_eq key c1 t1 st0
  have hother0 : ∀ e ∈ (st0.timers.filter (fun e => ¬ e.2.2 ≤ t1)).filter
      (fun e => ¬ e.1 == key), e.1 ≠ key := fun e he =>
    hnokey e (List.mem_of_mem_filter (List.mem_of_mem_filter he))
  have hwnokey : ((st0.timers.filter (fun e => e.2.2 ≤ t1)).map
      (fun e => (e.1, e.2.1))).filter (fun e => e.1 == key) = [] := by
    apply filter_key_nil
    intro e he
    simp only [List.mem_map, List.mem_filter] at he
    rcases he with ⟨x, ⟨hx1, _⟩, hx3⟩
    rw [← hx3]
    exact hnokey x hx1
  rcases runBurst_rep key rest
      ((st0.timers.filter (fun e => ¬ e.2.2 ≤ t1)).filter (fun e => ¬ e.1 == key))
      (st0.writes ++ (st0.timers.filter (fun e => e.2.2 ≤ t1)).map (fun e => (e.1, e.2.1)))
      c1 (t1 + debounceWindow) hother0 hwin with ⟨other2, w2, heq, hk2, hf2⟩
  have hfinal : runBurst key ((c1, t1) :: rest) st0 =
      { timers := other2 ++
          [(key, (lastEdit rest c1 (t1 + debounceWindow)).1,
            (lastEdit rest c1 (t1 + debounceWindow)).2)],
        writes := w2 } := by
    rw [hstep, hshape]
    exact heq
  have hw2 : w2.filter (fun e => e.1 == key) = st0.writes.filter (fun e => e.1 == key) := by
    rw [hf2, List.filter_append, hwnokey, List.append_nil]
  refine ⟨?_, ?_, ?_, lastEdit_fst ((c1, t1) :: rest) c1 (t1 + debounceWindow)⟩
  · rw [hfinal, writesFor_mk, hw2]
    rfl
  · rw [hfinal]
    unfold timerFor
    rw [find?_key_concat key other2 _ hk2 rfl]
    rfl
  · rw [hfinal, wkey_fireExpired]
    rw [hw2]
    have hexp : (other2 ++
        [(key, (lastEdit rest c1 (t1 + debounceWindow)).1,
          (lastEdit rest c1 (t1 + debounceWindow)).2)]).filter
          (fun e => e.2.2 ≤ T) =
        other2.filter (fun e => e.2.2 ≤ T) ++
          [(key, (lastEdit rest c1 (t1 + debounceWindow)).1,
            (lastEdit rest c1 (t1 + debounceWindow)).2)] := by
      rw [List.filter_append]
      congr 1
      simp [List.filter_cons, hT]
    rw [hexp, List.map_append, List.filter_append]
    have hnok2 : ((other2.filter (fun e => e.2.2 ≤ T)).map
        (fun e => (e.1, e.2.1))).filter (fun e => e.1 == key) = [] := by
      apply filter_key_nil
      intro e he
      simp only [List.mem_map, List.mem_filter] at he
      rcases he with ⟨x, ⟨hx1, _⟩, hx3⟩
      rw [← hx3]
      exact hk2 x hx1
    rw [hnok2, List.nil_append]
    simp [writesFor]

/-- Witness for C8: three edits 900 ms apart on key (1,2) from an empty
scheduler, expired at time 5000. -/
theorem c8_debounce_coalescing_witness :
    writesFor (1, 2) (runBurst (1, 2) [("a", 0), ("b", 900), ("c", 1800)]
        { timers := [], writes := [] }) =
      writesFor (1, 2) { timers := [], writes := [] } ∧
    timerFor (1, 2) (runBurst (1, 2) [("a", 0), ("b", 900), ("c", 1800)]
        { timers := [], writes := [] }) =
      some (lastEdit [("b", 900), ("c", 1800)] "a" (0 + debounceWindow)) ∧
    writesFor (1, 2) (fireExpired 5000 (runBurst (1, 2) [("a", 0), ("b", 900), ("c", 1800)]
        { timers := [], writes := [] })) =
      writesFor (1, 2) { timers := [], writes := [] } ++
        [(lastEdit [("b", 900), ("c", 1800)] "a" (0 + debounceWindow)).1] ∧
    (lastEdit [("b", 900), ("c", 1800)] "a" (0 + debounceWindow)).1 =
      ((([("a", 0), ("b", 900), ("c", 1800)] :
          List (String × Nat)).map (fun e => e.1)).getLast?).getD "a" :=
  c8_debounce_coalescing.2.2 (1, 2) "a" 0 [("b", 900), ("c", 1800)]
    { timers := [], writes := [] } 5000 (by decide)
    (by exact ⟨by decide, by decide, trivial⟩) (by decide)

/-!  Claim C9.  -/

/-- Claim C9, counterexample: user 7 has two live connections (two tabs)
joined to room 1; connection 1 sends `leave-document`.  The handler deletes
user 7 from the member set unconditionally (and discards the now-empty
room entry) even though connection 2 — the same user's other tab — is
still in the room, so presence is not kept alive by the second tab as the
claim requires. -/
theorem c9_second_tab_counterexample :
    ((leaveDocument { conns := [{ cid := 1, uid := 7, joined := [1] }, { cid := 2, uid := 7, joined := [1] }], rooms := [(1, [7])] } 1 7 1).1.conns.any
        (fun c => c.uid == 7 && c.joined.contains 1)) = true ∧
    membersOf
      (leaveDocument { conns := [{ cid := 1, uid := 7, joined := [1] }, { cid := 2, uid := 7, joined := [1] }], rooms := [(1, [7])] } 1 7 1).1 1 = none := by
  decide

/-- Claim C9 (amended): `leave-document` and the `disconnect` sweep remove
the user's id from the member set unconditionally — not only on the last
active connection, so a surviving second tab of the same user loses its
recorded presence.  The rest of the claim holds: exactly the connections
still in the socket room (the leaver excluded) are notified `user-left`,
and a member set that becomes empty has its room entry discarded, so no
empty-set entry ever lingers. -/
theorem c9_leave_removes_unconditionally :
    (∀ (st : SessionState) (cid uid docId : Nat),
        (∀ e ∈ st.rooms, e.2.Nodup) →
        ∀ m, membersOf (leaveDocument st cid uid docId).1 docId = some m → uid ∉ m) ∧
    (∀ (st : SessionState) (cid uid docId : Nat),
        (∀ e ∈ st.rooms, e.2 ≠ []) →
        ∀ e ∈ (leaveDocument st cid uid docId).1.rooms, e.2 ≠ []) ∧
    (∀ (st : SessionState) (cid uid docId x : Nat),
        x ∈ (leaveDocument st cid uid docId).2 ↔
          ∃ c2 ∈ (leaveDocument st cid uid docId).1.conns,
            c2.cid = x ∧ x ≠ cid ∧ docId ∈ c2.joined) ∧
    (∀ (st : SessionState) (cid uid : Nat),
        (∀ e ∈ st.rooms, e.2.Nodup) →
        ∀ e ∈ (disconnectCleanup st cid uid).1.rooms, uid ∉ e.2) ∧
    (∀ (st : SessionState) (cid uid : Nat),
        (∀ e ∈ st.rooms, e.2 ≠ []) →
        ∀ e ∈ (disconnectCleanup st cid uid).1.rooms, e.2 ≠ []) := by
  refine ⟨?_, ?_, ?_, ?_, ?_⟩
  · intro st cid uid docId h
    exact removeFromRoom_not_mem st.rooms uid docId h
  · intro st cid uid docId h
    exact removeFromRoom_nonempty st.rooms uid docId h
  · intro st cid uid docId x
    show x ∈ ((delJoined st cid docId).conns.filter
        (fun c => c.cid ≠ cid ∧ docId ∈ c.joined)).map (fun c => c.cid) ↔ _
    simp only [List.mem_map, List.mem_filter, decide_eq_true_eq]
    constructor
    · rintro ⟨c2, ⟨hm, hp⟩, hcid⟩
      exact ⟨c2, hm, hcid, hcid ▸ hp.1, hp.2⟩
    · rintro ⟨c2, hm, hcid, hne, hj⟩
      exact ⟨c2, ⟨hm, hcid.symm ▸ hne, hj⟩, hcid⟩
  · intro st cid uid h
    exact removeUserRooms_not_mem st.rooms uid h
  · intro st cid uid h
    exact removeUserRooms_nonempty st.rooms uid h

/-- Witness for C9 (amended): room 1 holds users 7 and 8; connection 1
(user 7) leaves while connection 2 (user 8) stays. -/
theorem c9_leave_removes_unconditionally_witness :
    (∀ m, membersOf (leaveDocument { conns := [{ cid := 1, uid := 7, joined := [1] }, { cid := 2, uid := 8, joined := [1] }], rooms := [(1, [7, 8])] } 1 7 1).1 1 = some m → 7 ∉ m) ∧
    (∀ e ∈ (leaveDocument { conns := [{ cid := 1, uid := 7, joined := [1] }, { cid := 2, uid := 8, joined := [1] }], rooms := [(1, [7, 8])] } 1 7 1).1.rooms, e.2 ≠ []) ∧
    (2 ∈ (leaveDocument { conns := [{ cid := 1, uid := 7, joined := [1] }, { cid := 2, uid := 8, joined := [1] }], rooms := [(1, [7, 8])] } 1 7 1).2 ↔
      ∃ c2 ∈ (leaveDocument { conns := [{ cid := 1, uid := 7, joined := [1] }, { cid := 2, uid := 8, joined := [1] }], rooms := [(1, [7, 8])] } 1 7 1).1.conns,
        c2.cid = 2 ∧ 2 ≠ 1 ∧ 1 ∈ c2.joined) ∧
    (∀ e ∈ (disconnectCleanup { conns := [{ cid := 1, uid := 7, joined := [1] }, { cid := 2, uid := 8, joined := [1] }], rooms := [(1, [7, 8])] } 1 7).1.rooms, 7 ∉ e.2) :=
  ⟨c9_leave_removes_unconditionally.1 _ 1 7 1 (by decide),
   c9_leave_removes_unconditionally.2.1 _ 1 7 1 (by decide),
   c9_leave_removes_unconditionally.2.2.1 _ 1 7 1 2,
   c9_leave_removes_unconditionally.2.2.2.1 _ 1 7 (by decide)⟩

/-!  Claim C10.  -/

/-- Claim C10: an explicit `save-document` whose content equals the stored
content is a successful no-op in the persistence layer (no version
appended, counter unchanged, state unchanged), yet the handler still
broadcasts `document-saved` to every member of the room — the saver
included — carrying the existing, unbumped version count. -/
theorem c10_unchanged_save_broadcast (sched : SchedState) (s : DocState)
    (room : List Nat) (docId : Nat) (c : String) (uid : Nat)
    (hacc : canAccess s.doc uid = true) (heq : s.doc.content = c) (hmem : uid ∈ room) :
    saveDocumentHandler sched s room docId c uid =
      (clearTimer (docId, uid) sched, s, .saved room s.doc.currentVersion) ∧
    uid ∈ room := by
  refine ⟨?_, hmem⟩
  unfold saveDocumentHandler saveDocumentToDB
  simp [hacc, heq]

/-- Witness for C10: owner saves identical content with one other member in
the room. -/
theorem c10_unchanged_save_broadcast_witness :
    saveDocumentHandler { timers := [], writes := [] }
        (createDocument "t" (some "v0") 1) [1, 2] 9 "v0" 1 =
      (clearTimer (9, 1) { timers := [], writes := [] },
       createDocument "t" (some "v0") 1,
       .saved [1, 2] (createDocument "t" (some "v0") 1).doc.currentVersion) ∧
    1 ∈ [1, 2] :=
  c10_unchanged_save_broadcast { timers := [], writes := [] }
    (createDocument "t" (some "v0") 1) [1, 2] 9 "v0" 1 (by decide) (by decide)
    (by decide)
